import Mathlib

/-!
Verification of the authenticated API request pipeline of the Bingo_ledger
frontend: the credential store, the request pipeline with its 401
refresh-and-retry protocol, and the session facade
(`src/frontend/src/utils/api.ts` and `src/frontend/src/utils/auth.ts`).

The embedding is executable throughout.  JavaScript's `JSON.parse` and
`JSON.stringify` library functions are modelled over a first-order JSON value
type (`JVal`); the model covers integer numerals (the only numerals the
pipeline's data uses; floating point is out of scope) and the two JSON string
escapes produced by the serializer.  Browser `localStorage`/`sessionStorage`
are modelled as records of the three keys the code uses.  The network is
modelled as an oracle: a queue of HTTP responses consumed one per `fetch`,
with a log of the calls issued.
-/

namespace Bingo

/-! ## JSON values

Arrays and objects are encoded as cons chains inside a single plain inductive
so that equality is decidable and every function on `JVal` is structurally
recursive (hence kernel-reducible).  `wfJ` singles out the well-formed values,
whose array/object tails are again chains. -/
inductive JVal where
  | jnull
  | jbool (b : Bool)
  | jnum (n : Int)
  | jstr (s : String)
  | jarrNil
  | jarrCons (hd : JVal) (tl : JVal)
  | jobjNil
  | jobjCons (key : String) (val : JVal) (tl : JVal)
deriving DecidableEq, Repr

/-- Top-of-chain shape check for array tails. -/
def arrShape : JVal → Bool
  | .jarrNil => true
  | .jarrCons _ _ => true
  | _ => false

/-- Top-of-chain shape check for object tails. -/
def objShape : JVal → Bool
  | .jobjNil => true
  | .jobjCons _ _ _ => true
  | _ => false

/-- Well-formedness: every array/object tail is again an array/object chain. -/
def wfJ : JVal → Bool
  | .jarrCons h t => wfJ h && (arrShape t && wfJ t)
  | .jobjCons _ v t => wfJ v && (objShape t && wfJ t)
  | _ => true

/-- JavaScript truthiness of a JSON value (`Boolean(v)`). -/
def JVal.truthy : JVal → Bool
  | .jnull => false
  | .jbool b => b
  | .jnum n => n != 0
  | .jstr s => s != ""
  | _ => true

/-- JavaScript property access `v.key` on a parsed JSON value: a lookup on
objects (duplicate keys: the last occurrence wins, as in `JSON.parse`),
`undefined` (`none`) on every other non-null value.  Access on `null` throws
in JavaScript; callers of this model handle the `jnull` case explicitly. -/
def JVal.getField : JVal → String → Option JVal
  | .jobjCons k v t, key =>
    match JVal.getField t key with
    | some r => some r
    | none => if k = key then some v else none
  | _, _ => none

/-! ## JSON serialization (model of `JSON.stringify`) -/
/-- Digit characters of a natural number, most significant first, accumulated
onto `acc`; `f` is fuel (any `f > n` is enough). -/
def natToCharsAux : Nat → Nat → List Char → List Char
  | 0, _, acc => acc
  | f + 1, n, acc =>
    if n = 0 then acc else natToCharsAux f (n / 10) (Nat.digitChar (n % 10) :: acc)

/-- Decimal numeral of a natural number. -/
def natToChars (n : Nat) : List Char :=
  if n = 0 then ['0'] else natToCharsAux (n + 1) n []

/-- Decimal numeral of an integer. -/
def intToChars (i : Int) : List Char :=
  if i < 0 then '-' :: natToChars i.natAbs else natToChars i.natAbs

/-- JSON string escaping of one character (the serializer escapes the quote
and the backslash). -/
def escChar (c : Char) : List Char :=
  if c = '"' ∨ c = '\\' then ['\\', c] else [c]

/-- JSON string escaping. -/
def escapeChars : List Char → List Char
  | [] => []
  | c :: rest => escChar c ++ escapeChars rest

/-- A JSON string literal: quote, escaped body, quote. -/
def strLit (s : String) : List Char :=
  '"' :: escapeChars s.data ++ ['"']

/-- Serialization mode: a top-level value, the tail of an array chain, or the
tail of an object chain. -/
inductive SMode where
  | top
  | atail
  | otail
deriving DecidableEq, Repr

/-- Mode-indexed serializer; `sVm .top` is `JSON.stringify`. -/
def sVm : SMode → JVal → List Char
  | .top, .jnull => 'n' :: 'u' :: 'l' :: 'l' :: []
  | .top, .jbool true => 't' :: 'r' :: 'u' :: 'e' :: []
  | .top, .jbool false => 'f' :: 'a' :: 'l' :: 's' :: 'e' :: []
  | .top, .jnum n => intToChars n
  | .top, .jstr s => strLit s
  | .top, .jarrNil => '[' :: [']']
  | .top, .jarrCons h t => '[' :: sVm .top h ++ sVm .atail t
  | .top, .jobjNil => '{' :: ['}']
  | .top, .jobjCons k v t => '{' :: strLit k ++ ':' :: sVm .top v ++ sVm .otail t
  | .atail, .jarrCons h t => ',' :: sVm .top h ++ sVm .atail t
  | .atail, _ => [']']
  | .otail, .jobjCons k v t => ',' :: strLit k ++ ':' :: sVm .top v ++ sVm .otail t
  | .otail, _ => ['}']

/-- `JSON.stringify` on the model. -/
def stringifyV (v : JVal) : String :=
  String.mk (sVm .top v)

/-! ## JSON parsing (model of `JSON.parse`) -/
/-- JSON whitespace. -/
def isWs (c : Char) : Bool :=
  c = ' ' || c = '\t' || c = '\n' || c = '\r'

/-- Drop leading JSON whitespace. -/
def skipWs : List Char → List Char
  | [] => []
  | c :: rest => if isWs c then skipWs rest else c :: rest

/-- Body of a string literal after the opening quote: characters up to the
closing quote, undoing the backslash escapes. -/
def parseStrChars : List Char → Option (List Char × List Char)
  | [] => none
  | c :: rest =>
    if c = '"' then some ([], rest)
    else if c = '\\' then
      match rest with
      | [] => none
      | c2 :: rest2 =>
        match parseStrChars rest2 with
        | some (s, r) => some (c2 :: s, r)
        | none => none
    else
      match parseStrChars rest with
      | some (s, r) => some (c :: s, r)
      | none => none

/-- Longest digit run at the head of the input. -/
def takeDigits : List Char → List Char × List Char
  | [] => ([], [])
  | c :: rest =>
    if c.isDigit then
      let p := takeDigits rest
      (c :: p.1, p.2)
    else ([], c :: rest)

/-- Value of a big-endian digit-character list. -/
def digitsVal (ds : List Char) : Nat :=
  ds.foldl (fun a c => a * 10 + (c.toNat - 48)) 0

/-- A natural-number token: a nonempty digit run. -/
def parseNatTok (cs : List Char) : Option (Nat × List Char) :=
  let p := takeDigits cs
  if p.1 = [] then none else some (digitsVal p.1, p.2)

/-- An integer token: an optional minus sign and a digit run. -/
def parseIntTok : List Char → Option (JVal × List Char)
  | [] => none
  | c :: rest =>
    if c = '-' then
      match parseNatTok rest with
      | some (n, r) => some (.jnum (-(n : Int)), r)
      | none => none
    else
      match parseNatTok (c :: rest) with
      | some (n, r) => some (.jnum (n : Int), r)
      | none => none

/-- Fixed keyword after its first character. -/
def expectKeyword (pat : List Char) (v : JVal) (cs : List Char) : Option (JVal × List Char) :=
  if pat.isPrefixOf cs then some (v, cs.drop pat.length) else none

/-- Parsing mode: a value, the members of an object (after `{`, first key
expected), or the elements of an array (after `[`, first element expected). -/
inductive PMode where
  | val
  | mem
  | elem
deriving DecidableEq, Repr

/-- Fuel-indexed recursive-descent JSON parser. -/
def parseP : Nat → PMode → List Char → Option (JVal × List Char)
  | 0, _, _ => none
  | fuel + 1, .val, cs =>
    match skipWs cs with
    | [] => none
    | c :: rest =>
      if c = 'n' then expectKeyword ['u', 'l', 'l'] .jnull rest
      else if c = 't' then expectKeyword ['r', 'u', 'e'] (.jbool true) rest
      else if c = 'f' then expectKeyword ['a', 'l', 's', 'e'] (.jbool false) rest
      else if c = '"' then
        match parseStrChars rest with
        | some (s, r) => some (.jstr (String.mk s), r)
        | none => none
      else if c = '[' then
        match skipWs rest with
        | [] => none
        | c1 :: r1 =>
          if c1 = ']' then some (.jarrNil, r1)
          else parseP fuel .elem (c1 :: r1)
      else if c = '{' then
        match skipWs rest with
        | [] => none
        | c1 :: r1 =>
          if c1 = '}' then some (.jobjNil, r1)
          else parseP fuel .mem (c1 :: r1)
      else parseIntTok (c :: rest)
  | fuel + 1, .mem, cs =>
    match skipWs cs with
    | [] => none
    | c :: rest =>
      if c = '"' then
        match parseStrChars rest with
        | some (k, r1) =>
          match skipWs r1 with
          | [] => none
          | c2 :: r2 =>
            if c2 = ':' then
              match parseP fuel .val r2 with
              | some (v, r3) =>
                match skipWs r3 with
                | [] => none
                | c4 :: r4 =>
                  if c4 = ',' then
                    match parseP fuel .mem r4 with
                    | some (t, r5) => some (.jobjCons (String.mk k) v t, r5)
                    | none => none
                  else if c4 = '}' then some (.jobjCons (String.mk k) v .jobjNil, r4)
                  else none
              | none => none
            else none
        | none => none
      else none
  | fuel + 1, .elem, cs =>
    match parseP fuel .val cs with
    | some (v, r1) =>
      match skipWs r1 with
      | [] => none
      | c2 :: r2 =>
        if c2 = ',' then
          match parseP fuel .elem r2 with
          | some (t, r3) => some (.jarrCons v t, r3)
          | none => none
        else if c2 = ']' then some (.jarrCons v .jarrNil, r2)
        else none
    | none => none

/-- `JSON.parse` on the model: `none` models a thrown `SyntaxError`.  The
whole input, up to trailing whitespace, must be consumed. -/
def jsonParse (s : String) : Option JVal :=
  match parseP (2 * s.data.length + 2) .val s.data with
  | some (v, rest) => if skipWs rest = [] then some v else none
  | none => none

/-- Head-digit test used to state when a numeral token stops. -/
def leadDigit : List Char → Bool
  | [] => false
  | c :: _ => c.isDigit

/-- Round-trip statement for values at a given fuel. -/
def PvalStmt (f : Nat) : Prop :=
  ∀ v rest, wfJ v = true → leadDigit rest = false →
    2 * (sVm .top v ++ rest).length < f →
    parseP f .val (sVm .top v ++ rest) = some (v, rest)

/-- Round-trip statement for object member chains at a given fuel. -/
def PmemStmt (f : Nat) : Prop :=
  ∀ k v t rest, wfJ v = true → objShape t = true → wfJ t = true →
    2 * ((strLit k ++ ':' :: sVm .top v ++ sVm .otail t) ++ rest).length + 1 < f →
    parseP f .mem ((strLit k ++ ':' :: sVm .top v ++ sVm .otail t) ++ rest)
      = some (.jobjCons k v t, rest)

/-- Round-trip statement for array element chains at a given fuel. -/
def PelemStmt (f : Nat) : Prop :=
  ∀ h t rest, wfJ h = true → arrShape t = true → wfJ t = true →
    2 * ((sVm .top h ++ sVm .atail t) ++ rest).length + 1 < f →
    parseP f .elem ((sVm .top h ++ sVm .atail t) ++ rest) = some (.jarrCons h t, rest)

/-! ## Credential Store

Model of the storage layer of `api.ts` (lines 1-78).  `localStorage` and
`sessionStorage` each hold the three keys the code uses
(`access_token`, `refresh_token`, `user`); `getItem` returning `none` models
the browser's `null`.  JavaScript truthiness of `string | null` (`null` and
`""` falsy) is `strTruthy`. -/
inductive StorageType where
  | localS
  | sessionS
deriving DecidableEq, Repr

inductive StorageKey where
  | accessTokenKey
  | refreshTokenKey
  | userKey
deriving DecidableEq, Repr

structure Store where
  accessItem : Option String
  refreshItem : Option String
  userItem : Option String
deriving DecidableEq, Repr

def Store.getItem (s : Store) : StorageKey → Option String
  | .accessTokenKey => s.accessItem
  | .refreshTokenKey => s.refreshItem
  | .userKey => s.userItem

def Store.setItem (s : Store) (k : StorageKey) (v : String) : Store :=
  match k with
  | .accessTokenKey => { s with accessItem := some v }
  | .refreshTokenKey => { s with refreshItem := some v }
  | .userKey => { s with userItem := some v }

def Store.removeItem (s : Store) (k : StorageKey) : Store :=
  match k with
  | .accessTokenKey => { s with accessItem := none }
  | .refreshTokenKey => { s with refreshItem := none }
  | .userKey => { s with userItem := none }

def emptyStore : Store := ⟨none, none, none⟩

structure WebStorage where
  localStorage : Store
  sessionStorage : Store
deriving DecidableEq, Repr

def emptyWeb : WebStorage := ⟨emptyStore, emptyStore⟩

/-- Source: `getStorage` — selects the browser storage for a lifetime. -/
def getStorage (w : WebStorage) : StorageType → Store
  | .localS => w.localStorage
  | .sessionS => w.sessionStorage

/-- Functional update of the selected browser storage. -/
def setStorage (w : WebStorage) : StorageType → Store → WebStorage
  | .localS, s => { w with localStorage := s }
  | .sessionS, s => { w with sessionStorage := s }

/-- JavaScript truthiness of a `string | null` value. -/
def strTruthy : Option String → Bool
  | none => false
  | some s => s != ""

/-- Source: `readFromStorage` — `localStorage.getItem(key) ?? sessionStorage.getItem(key)`
(`??` only skips `null`, so a stored empty string is returned). -/
def readFromStorage (key : StorageKey) (w : WebStorage) : Option String :=
  (w.localStorage.getItem key).orElse (fun _ => w.sessionStorage.getItem key)

/-- Source: `getTokenStorageType` — `local` if a truthy refresh token is in
localStorage, else `session` if one is in sessionStorage, else null. -/
def getTokenStorageType (w : WebStorage) : Option StorageType :=
  if strTruthy (w.localStorage.getItem .refreshTokenKey) then some .localS
  else if strTruthy (w.sessionStorage.getItem .refreshTokenKey) then some .sessionS
  else none

/-- Source: `getAuthStorageType`. -/
def getAuthStorageType (w : WebStorage) : Option StorageType :=
  getTokenStorageType w

/-- Source: `getAccessToken`. -/
def getAccessToken (w : WebStorage) : Option String :=
  readFromStorage .accessTokenKey w

/-- Source: `getRefreshToken`. -/
def getRefreshToken (w : WebStorage) : Option String :=
  readFromStorage .refreshTokenKey w

structure TokenPair where
  accessToken : String
  refreshToken : String
deriving DecidableEq, Repr

/-- Source: `clearAuthStorage` — removes all three keys from both storages. -/
def clearAuthStorage (w : WebStorage) : WebStorage :=
  ⟨((w.localStorage.removeItem .accessTokenKey).removeItem .refreshTokenKey).removeItem .userKey,
   ((w.sessionStorage.removeItem .accessTokenKey).removeItem .refreshTokenKey).removeItem .userKey⟩

/-- Source: `setAuthTokens` — clears both storages, then writes both tokens
into the storage selected by `rememberMe`. -/
def setAuthTokens (tokens : TokenPair) (rememberMe : Bool) (w : WebStorage) : WebStorage :=
  let w1 := clearAuthStorage w
  let t := if rememberMe then StorageType.localS else StorageType.sessionS
  setStorage w1 t (((getStorage w1 t).setItem .accessTokenKey tokens.accessToken).setItem
    .refreshTokenKey tokens.refreshToken)

/-- Source: `setStoredUser` — removes the user key from both storages, then
writes `JSON.stringify(user)` into the selected one. -/
def setStoredUser (user : JVal) (rememberMe : Bool) (w : WebStorage) : WebStorage :=
  let w1 := ⟨w.localStorage.removeItem .userKey, w.sessionStorage.removeItem .userKey⟩
  let t := if rememberMe then StorageType.localS else StorageType.sessionS
  setStorage w1 t ((getStorage w1 t).setItem .userKey (stringifyV user))

/-- Source: `getStoredUser` — `stored ? JSON.parse(stored) : null`.
`Except.error ()` models the `SyntaxError` that `JSON.parse` throws on a
malformed (truthy) stored string; the code has no catch around it. -/
def getStoredUser (w : WebStorage) : Except Unit (Option JVal) :=
  match readFromStorage .userKey w with
  | none => .ok none
  | some stored =>
    if stored = "" then .ok none
    else
      match jsonParse stored with
      | some v => .ok (some v)
      | none => .error ()

/-- Source: `updateAccessToken` — in-place overwrite of the access token in
the active lifetime; no-op when no lifetime is active. -/
def updateAccessToken (token : String) (w : WebStorage) : WebStorage :=
  match getTokenStorageType w with
  | none => w
  | some t => setStorage w t ((getStorage w t).setItem .accessTokenKey token)

/-! ## Request Pipeline

Model of `request`, `refreshAccessToken` and `parseErrorMessage` from
`api.ts` (lines 80-189).  The network is an oracle: `AppSt.pending` is the
queue of HTTP responses, consumed one per `fetch`, and `AppSt.calls` logs
every `fetch` issued (URL, method, Authorization header, Content-Type header,
serialized body).  `RunRes` classifies how one invocation completes:
a value, a thrown `ApiError`, a thrown non-`ApiError` JavaScript exception
(`SyntaxError` from `JSON.parse` or `TypeError` from a property access on
`null`/`undefined`), or exhaustion of the response oracle (a model artifact
excluded by the theorems' hypotheses).  Custom caller headers and `FormData`
bodies (an opaque browser type) are outside the modelled option space. -/
structure HttpResponse where
  status : Nat
  statusText : String
  contentType : Option String
  body : String
deriving DecidableEq, Repr

/-- `response.ok`: status in the 2xx range. -/
def HttpResponse.ok (r : HttpResponse) : Bool :=
  decide (200 ≤ r.status) && decide (r.status < 300)

structure FetchCall where
  url : String
  method : String
  authorization : Option String
  contentTypeHeader : Option String
  bodySent : Option String
deriving DecidableEq, Repr

structure AppSt where
  web : WebStorage
  currentUser : Option JVal
  pending : List HttpResponse
  calls : List FetchCall
deriving DecidableEq, Repr

structure ApiError where
  message : String
  status : Nat
  data : JVal
deriving DecidableEq, Repr

inductive RunRes (α : Type) where
  | ok (v : α)
  | apiErr (e : ApiError)
  | jsExn
  | noResponse
deriving DecidableEq, Repr

/-- Result value of a successful `request`: `undefined` for 204, parsed JSON
for a JSON content type, raw text otherwise. -/
inductive RespVal where
  | empty
  | jsonVal (v : JVal)
  | textVal (s : String)
deriving DecidableEq, Repr

structure RequestOptions where
  method : String
  body : Option JVal
  skipAuth : Bool
  retry : Bool
deriving DecidableEq, Repr

/-- Options as a caller that passes none supplies them: `fetch` defaults the
method to GET, `skipAuth` is undefined (falsy), `retry` defaults to true. -/
def defaultOptions : RequestOptions :=
  { method := "GET", body := none, skipAuth := false, retry := true }

/-- `import.meta.env.VITE_API_URL ?? "http://localhost:5000/api"` with the
environment variable unset. -/
def API_BASE_URL : String := "http://localhost:5000/api"

/-- One `fetch`: log the call, consume the next pending response. -/
def doFetch (call : FetchCall) (st : AppSt) : Option HttpResponse × AppSt :=
  let st1 := { st with calls := st.calls ++ [call] }
  match st1.pending with
  | [] => (none, st1)
  | r :: rest => (some r, { st1 with pending := rest })

/-- String coercion `String(v)` of a JSON value (array elements joined with
`","`, objects printed as `[object Object]`); second mode handles array
tails. -/
def jsStrM : Bool → JVal → String
  | false, .jnull => "null"
  | false, .jbool b => cond b "true" "false"
  | false, .jnum n => String.mk (intToChars n)
  | false, .jstr s => s
  | false, .jarrNil => ""
  | false, .jarrCons h t => (if h = .jnull then "" else jsStrM false h) ++ jsStrM true t
  | false, .jobjNil => "[object Object]"
  | false, .jobjCons _ _ _ => "[object Object]"
  | true, .jarrCons h t => "," ++ (if h = .jnull then "" else jsStrM false h) ++ jsStrM true t
  | true, _ => ""

/-- `data.required.join(", ")`: array elements coerced with `String`, `null`
elements rendered empty; first mode is before the first element. -/
def joinRequired : Bool → JVal → String
  | false, .jarrCons h t => (if h = .jnull then "" else jsStrM false h) ++ joinRequired true t
  | true, .jarrCons h t => ", " ++ (if h = .jnull then "" else jsStrM false h) ++ joinRequired true t
  | _, _ => ""

/-- A field that is a nonempty (truthy) string, as tested by
`typeof data.x === "string" && data.x`. -/
def strFieldTruthy (data : JVal) (key : String) : Option String :=
  match JVal.getField data key with
  | some (.jstr s) => if s = "" then none else some s
  | _ => none

/-- Source: `parseErrorMessage` — prefer a truthy string `error` field, then
a truthy string `message` field, then the fallback; append a comma-joined
`required` list when present and an array. -/
def parseErrorMessage (data : JVal) (fallback : String) : String :=
  let errorText :=
    match strFieldTruthy data "error" with
    | some s => s
    | none =>
      match strFieldTruthy data "message" with
      | some s => s
      | none => fallback
  match JVal.getField data "required" with
  | some req => if arrShape req then errorText ++ ": " ++ joinRequired false req else errorText
  | none => errorText

/-- Source: `refreshAccessToken` (api.ts lines 93-118).  Absent or empty
refresh token: fail immediately with no fetch.  Non-2xx refresh response:
clear all stored credentials and fail.  2xx: parse the body (an unparsable
body throws, and `data.access_token` on a `null` body throws); a truthy
`access_token` is written in place and the refresh succeeds, anything else
fails leaving storage untouched. -/
def refreshAccessToken (st : AppSt) : RunRes Bool × AppSt :=
  match getRefreshToken st.web with
  | none => (.ok false, st)
  | some refreshToken =>
    if refreshToken = "" then (.ok false, st)
    else
      let refreshCall : FetchCall :=
        { url := API_BASE_URL ++ "/auth/refresh", method := "POST",
          authorization := some ("Bearer " ++ refreshToken),
          contentTypeHeader := none, bodySent := none }
      match doFetch refreshCall st with
      | (none, st1) => (.noResponse, st1)
      | (some r, st1) =>
        if r.ok = false then (.ok false, { st1 with web := clearAuthStorage st1.web })
        else
          match jsonParse r.body with
          | none => (.jsExn, st1)
          | some data =>
            if data = .jnull then (.jsExn, st1)
            else
              match JVal.getField data "access_token" with
              | some tokVal =>
                if tokVal.truthy then
                  (.ok true, { st1 with web := updateAccessToken (jsStrM false tokVal) st1.web })
                else (.ok false, st1)
              | none => (.ok false, st1)

/-- `contentType?.includes("application/json")`. -/
def listContainsSub (needle : List Char) : List Char → Bool
  | [] => needle.isPrefixOf []
  | c :: t => needle.isPrefixOf (c :: t) || listContainsSub needle t

def ctIncludesJson : Option String → Bool
  | none => false
  | some s => listContainsSub ("application/json".data) s.data

/-- Lines 153-177 of `request`: error classification for non-2xx responses
(error-body parse failures are caught and default to `{}`, but an error body
that parses to `null` makes `parseErrorMessage` throw a `TypeError`), 204
as empty success, JSON parsing for JSON content types (uncaught), raw text
otherwise. -/
def handleResponse (r : HttpResponse) (st : AppSt) : RunRes RespVal × AppSt :=
  if r.ok = false then
    let errorData := (jsonParse r.body).getD .jobjNil
    if errorData = .jnull then (.jsExn, st)
    else
      (.apiErr { message := parseErrorMessage errorData r.statusText,
                 status := r.status, data := errorData }, st)
  else if r.status = 204 then (.ok .empty, st)
  else if ctIncludesJson r.contentType = true then
    match jsonParse r.body with
    | some v => (.ok (.jsonVal v), st)
    | none => (.jsExn, st)
  else (.ok (.textVal r.body), st)

/-- The Authorization header `request` attaches: the stored access token as
a bearer credential, unless `skipAuth` is set or the token is absent or
empty (falsy). -/
def requestAuthHeader (options : RequestOptions) (st : AppSt) : Option String :=
  match getAccessToken st.web with
  | some tok => if options.skipAuth = false ∧ tok ≠ "" then some ("Bearer " ++ tok) else none
  | none => none

/-- The `fetch` call one `request` invocation issues: base URL plus path, the
caller's method, the bearer header, a Content-Type defaulted to JSON when a
(structured, non-`FormData`) body is present, and the JSON-serialized body. -/
def requestCall (path : String) (options : RequestOptions) (st : AppSt) : FetchCall :=
  { url := API_BASE_URL ++ path, method := options.method,
    authorization := requestAuthHeader options st,
    contentTypeHeader := if options.body.isSome then some "application/json" else none,
    bodySent := options.body.map (fun b => stringifyV b) }

/-- Source: `request` (api.ts lines 126-178).  Reads the access token from
storage, attaches it as a bearer header unless `skipAuth`, serializes a
structured body to JSON with a defaulted Content-Type, fetches, and on a 401
(when `retry` is set, auth is not skipped and the path is not the refresh
endpoint) runs the refresh protocol and on success re-issues the request once
with `retry := false`.  The fuel argument bounds that recursion; the public
entry `request` passes fuel 1, and since the re-issued call carries
`retry := false` the fuel-0 fallback (which skips the retry branch) is
unreachable from it. -/
def requestAux : Nat → String → RequestOptions → AppSt → RunRes RespVal × AppSt
  | fuel, path, options, st =>
    match doFetch (requestCall path options st) st with
    | (none, st1) => (.noResponse, st1)
    | (some r, st1) =>
      if r.status = 401 ∧ options.retry = true ∧ options.skipAuth = false ∧ path ≠ "/auth/refresh" then
        match refreshAccessToken st1 with
        | (.ok true, st2) =>
          match fuel with
          | fuel' + 1 => requestAux fuel' path { options with retry := false } st2
          | 0 => handleResponse r st2
        | (.ok false, st2) => handleResponse r st2
        | (.apiErr e, st2) => (.apiErr e, st2)
        | (.jsExn, st2) => (.jsExn, st2)
        | (.noResponse, st2) => (.noResponse, st2)
      else handleResponse r st1

/-- The public `request` entry point. -/
def request (path : String) (options : RequestOptions) (st : AppSt) :
    RunRes RespVal × AppSt :=
  requestAux 1 path options st

/-- `apiClient.get`: `request` with the method forced to GET. -/
def apiClientGet (path : String) (options : RequestOptions) (st : AppSt) :
    RunRes RespVal × AppSt :=
  request path { options with method := "GET" } st

/-! ## Session Facade

Model of `AuthService` (`auth.ts`).  The in-memory cached identity is
`AppSt.currentUser`; user values are kept as parsed JSON (`JVal`), since the
TypeScript casts perform no runtime validation.  `User` is the record shape
of the `User` interface; its optional fields distinguish absent
(`none`) from `null` (`some none`), and `JSON.stringify` omits absent
fields. -/
structure User where
  id : Int
  name : String
  email : String
  organization_id : Option (Option Int)
  created_at : Option (Option String)
deriving DecidableEq, Repr

/-- The JSON object `JSON.stringify` serializes for a `User` record, fields
in declaration order, absent optional fields omitted. -/
def userToJVal (u : User) : JVal :=
  .jobjCons "id" (.jnum u.id)
    (.jobjCons "name" (.jstr u.name)
      (.jobjCons "email" (.jstr u.email)
        (match u.organization_id with
         | none =>
           (match u.created_at with
            | none => .jobjNil
            | some none => .jobjCons "created_at" .jnull .jobjNil
            | some (some s) => .jobjCons "created_at" (.jstr s) .jobjNil)
         | some oid =>
           .jobjCons "organization_id"
             (match oid with
              | none => .jnull
              | some n => .jnum n)
             (match u.created_at with
              | none => .jobjNil
              | some none => .jobjCons "created_at" .jnull .jobjNil
              | some (some s) => .jobjCons "created_at" (.jstr s) .jobjNil))))

/-- Source: `updateCurrentUser` (auth.ts lines 78-86).  Sets the in-memory
cache; with a user and an active lifetime, persists the snapshot into that
lifetime; with no user (`null`/`undefined`), clears the entire auth
storage. -/
def updateCurrentUser (user : Option JVal) (st : AppSt) : AppSt :=
  let st1 := { st with currentUser := user }
  let storageType := getAuthStorageType st1.web
  match user, storageType with
  | some u, some t => { st1 with web := setStoredUser u (t = StorageType.localS) st1.web }
  | some _, none => st1
  | none, _ => { st1 with web := clearAuthStorage st1.web }

/-- Source: `fetchCurrentUser` (auth.ts lines 88-92): authenticated GET of
`/users/me`, then `updateCurrentUser(response.user)` and return
`response.user`.  A JSON body of `null` and a 204 empty result make the
`response.user` access throw a `TypeError`; a text body yields `undefined`
(`none`). -/
def fetchCurrentUser (st : AppSt) : RunRes (Option JVal) × AppSt :=
  match apiClientGet "/users/me" defaultOptions st with
  | (.ok rv, st1) =>
    match rv with
    | .jsonVal v =>
      if v = .jnull then (.jsExn, st1)
      else
        let u := JVal.getField v "user"
        (.ok u, updateCurrentUser u st1)
    | .textVal _ => (.ok none, updateCurrentUser none st1)
    | .empty => (.jsExn, st1)
  | (.apiErr e, st1) => (.apiErr e, st1)
  | (.jsExn, st1) => (.jsExn, st1)
  | (.noResponse, st1) => (.noResponse, st1)

/-! ## Definitions used by the claim statements -/
/-- Single-active-lifetime invariant: at most one of the two storage
namespaces holds a refresh token. -/
def TokenInv (w : WebStorage) : Prop :=
  w.localStorage.getItem .refreshTokenKey = none
  ∨ w.sessionStorage.getItem .refreshTokenKey = none

/-- Storage as it stands after a login chose the lifetime `rememberMe` for a
token pair. -/
def scenarioWeb (accessTok refreshTok : String) (rememberMe : Bool) : WebStorage :=
  setAuthTokens ⟨accessTok, refreshTok⟩ rememberMe emptyWeb

/-- The refresh endpoint's 200 response carrying a fresh access token. -/
def refreshOkResp (rt : String) (ct : Option String) (newTok : String) : HttpResponse :=
  { status := 200, statusText := rt, contentType := ct,
    body := stringifyV (.jobjCons "access_token" (.jstr newTok) .jobjNil) }

/-- A 200 JSON response with a `user` payload, as `GET /users/me` returns. -/
def userOkResp (rt : String) (u : User) : HttpResponse :=
  { status := 200, statusText := rt, contentType := some "application/json",
    body := stringifyV (.jobjCons "user" (userToJVal u) .jobjNil) }

/-- A response whose body cannot make `JSON.parse` or a property access
throw on the paths that read it: a 2xx body parses to a non-null value, and a
non-2xx (error) body does not parse to literal `null`. -/
def SafeResp (r : HttpResponse) : Prop :=
  (r.ok = true → ∃ v, jsonParse r.body = some v ∧ v ≠ .jnull)
  ∧ (r.ok = false → jsonParse r.body ≠ some .jnull)

/-- The HTTP status carried by a thrown `ApiError`, if that is how the
invocation ended. -/
def resStatus : RunRes RespVal → Option Nat
  | .apiErr e => some e.status
  | _ => none

/-- The state as it stands right after `request`'s first fetch consumed the
head response: the call is logged and the queue advanced. -/
def afterFirstFetch (path : String) (opts : RequestOptions) (st : AppSt)
    (rest : List HttpResponse) : AppSt :=
  { st with pending := rest, calls := st.calls ++ [requestCall path opts st] }

/-! ## Round-trip lemmas: `jsonParse` recovers `stringifyV` output -/
theorem stringMkData (s : String) : String.mk s.data = s := rfl

theorem skipWs_cons {c : Char} (h : isWs c = false) (t : List Char) :
    skipWs (c :: t) = c :: t := by
  simp [skipWs, h]

theorem isPrefixOf_append (l₁ l₂ : List Char) : l₁.isPrefixOf (l₁ ++ l₂) = true := by
  induction l₁ with
  | nil => simp [List.isPrefixOf]
  | cons c t ih => simp [List.isPrefixOf, ih]

theorem expectKeyword_append (pat : List Char) (v : JVal) (rest : List Char) :
    expectKeyword pat v (pat ++ rest) = some (v, rest) := by
  simp [expectKeyword, isPrefixOf_append, List.drop_left]

theorem digitChar_isDigit {d : Nat} (h : d < 10) : (Nat.digitChar d).isDigit = true := by
  interval_cases d <;> decide

theorem digitChar_val {d : Nat} (h : d < 10) : (Nat.digitChar d).toNat - 48 = d := by
  interval_cases d <;> decide

theorem natToCharsAux_shift (n : Nat) : ∀ f acc, n < f →
    natToCharsAux f n acc = natToCharsAux (n + 1) n [] ++ acc := by
  induction n using Nat.strong_induction_on with
  | _ n ih =>
    intro f acc hf
    match f with
    | g + 1 =>
      by_cases h0 : n = 0
      · subst h0; simp [natToCharsAux]
      · have hd : n / 10 < n := Nat.div_lt_self (Nat.pos_of_ne_zero h0) (by norm_num)
        have h1 : natToCharsAux g (n / 10) (Nat.digitChar (n % 10) :: acc)
            = natToCharsAux (n / 10 + 1) (n / 10) [] ++ (Nat.digitChar (n % 10) :: acc) :=
          ih (n / 10) hd g _ (by omega)
        have h2 : natToCharsAux n (n / 10) [Nat.digitChar (n % 10)]
            = natToCharsAux (n / 10 + 1) (n / 10) [] ++ [Nat.digitChar (n % 10)] :=
          ih (n / 10) hd n _ (by omega)
        have h3 : natToCharsAux (g + 1) n acc
            = natToCharsAux g (n / 10) (Nat.digitChar (n % 10) :: acc) := by
          simp [natToCharsAux, h0]
        have h4 : natToCharsAux (n + 1) n []
            = natToCharsAux n (n / 10) [Nat.digitChar (n % 10)] := by
          simp [natToCharsAux, h0]
        rw [h3, h1, h4, h2]
        simp

theorem natToChars_cons_digits (n : Nat) (h0 : n ≠ 0) :
    natToCharsAux (n + 1) n [] =
      natToCharsAux (n / 10 + 1) (n / 10) [] ++ [Nat.digitChar (n % 10)] := by
  have hd : n / 10 < n := Nat.div_lt_self (Nat.pos_of_ne_zero h0) (by norm_num)
  have h4 : natToCharsAux (n + 1) n [] = natToCharsAux n (n / 10) [Nat.digitChar (n % 10)] := by
    simp [natToCharsAux, h0]
  rw [h4, natToCharsAux_shift (n / 10) n _ (by omega)]

theorem digitsVal_append_one (xs : List Char) (c : Char) :
    digitsVal (xs ++ [c]) = digitsVal xs * 10 + (c.toNat - 48) := by
  simp [digitsVal, List.foldl_append]

theorem digitsVal_natToCharsAux (n : Nat) : digitsVal (natToCharsAux (n + 1) n []) = n := by
  induction n using Nat.strong_induction_on with
  | _ n ih =>
    by_cases h0 : n = 0
    · subst h0; decide
    · have hd : n / 10 < n := Nat.div_lt_self (Nat.pos_of_ne_zero h0) (by norm_num)
      rw [natToChars_cons_digits n h0, digitsVal_append_one, ih (n / 10) hd,
        digitChar_val (Nat.mod_lt n (by norm_num))]
      omega

theorem digitsVal_natToChars (n : Nat) : digitsVal (natToChars n) = n := by
  by_cases h0 : n = 0
  · subst h0; decide
  · simp only [natToChars, if_neg h0]
    exact digitsVal_natToCharsAux n

theorem natToCharsAux_all_digits (n : Nat) :
    ∀ c ∈ natToCharsAux (n + 1) n [], c.isDigit = true := by
  induction n using Nat.strong_induction_on with
  | _ n ih =>
    by_cases h0 : n = 0
    · subst h0; simp [natToCharsAux]
    · have hd : n / 10 < n := Nat.div_lt_self (Nat.pos_of_ne_zero h0) (by norm_num)
      rw [natToChars_cons_digits n h0]
      intro c hc
      rcases List.mem_append.mp hc with hm | hm
      · exact ih (n / 10) hd c hm
      · simp at hm
        subst hm
        exact digitChar_isDigit (Nat.mod_lt n (by norm_num))

theorem natToChars_all_digits (n : Nat) : ∀ c ∈ natToChars n, c.isDigit = true := by
  by_cases h0 : n = 0
  · subst h0; decide
  · simp only [natToChars, if_neg h0]
    exact natToCharsAux_all_digits n

theorem natToChars_ne_nil (n : Nat) : natToChars n ≠ [] := by
  by_cases h0 : n = 0
  · subst h0; simp [natToChars]
  · simp only [natToChars, if_neg h0]
    rw [natToChars_cons_digits n h0]
    simp

theorem natToChars_head (n : Nat) :
    ∃ c cs, natToChars n = c :: cs ∧ c.isDigit = true := by
  rcases hx : natToChars n with _ | ⟨c, cs⟩
  · exact absurd hx (natToChars_ne_nil n)
  · exact ⟨c, cs, rfl, natToChars_all_digits n c (by rw [hx]; exact List.mem_cons_self c cs)⟩

theorem takeDigits_append (xs rest : List Char) (hx : ∀ c ∈ xs, c.isDigit = true)
    (hr : leadDigit rest = false) : takeDigits (xs ++ rest) = (xs, rest) := by
  induction xs with
  | nil =>
    cases rest with
    | nil => rfl
    | cons c t => simp only [leadDigit] at hr; simp [takeDigits, hr]
  | cons c t ih =>
    have hc : c.isDigit = true := hx c (List.mem_cons_self c t)
    have ht : ∀ x ∈ t, x.isDigit = true := fun x hm => hx x (List.mem_cons_of_mem c hm)
    simp [takeDigits, hc, ih ht]

theorem parseNatTok_natToChars (n : Nat) (rest : List Char) (hr : leadDigit rest = false) :
    parseNatTok (natToChars n ++ rest) = some (n, rest) := by
  simp only [parseNatTok, takeDigits_append (natToChars n) rest (natToChars_all_digits n) hr]
  simp [natToChars_ne_nil n, digitsVal_natToChars n]

theorem isDigit_not_ws {c : Char} (h : c.isDigit = true) : isWs c = false := by
  have h1 : c ≠ ' ' := fun hq => by subst hq; exact absurd h (by decide)
  have h2 : c ≠ '\t' := fun hq => by subst hq; exact absurd h (by decide)
  have h3 : c ≠ '\n' := fun hq => by subst hq; exact absurd h (by decide)
  have h4 : c ≠ '\r' := fun hq => by subst hq; exact absurd h (by decide)
  simp [isWs, h1, h2, h3, h4]

theorem isDigit_ne {c : Char} (x : Char) (h : c.isDigit = true) (hx : x.isDigit = false) :
    c ≠ x :=
  fun hq => by subst hq; rw [h] at hx; exact Bool.noConfusion hx

theorem parseIntTok_intToChars (i : Int) (rest : List Char) (hr : leadDigit rest = false) :
    parseIntTok (intToChars i ++ rest) = some (.jnum i, rest) := by
  by_cases hneg : i < 0
  · have habs : -((i.natAbs : Int)) = i := by omega
    simp only [intToChars, if_pos hneg, List.cons_append, parseIntTok, if_pos rfl,
      parseNatTok_natToChars i.natAbs rest hr, habs]
    simp
  · have habs : ((i.natAbs : Int)) = i := by omega
    simp only [intToChars, if_neg hneg]
    obtain ⟨c, cs, hc, hd⟩ := natToChars_head i.natAbs
    rw [hc]
    simp only [List.cons_append, parseIntTok, if_neg (isDigit_ne '-' hd (by decide))]
    rw [← List.cons_append, ← hc, parseNatTok_natToChars i.natAbs rest hr]
    simp [habs]

theorem parseStrChars_escape (s rest : List Char) :
    parseStrChars (escapeChars s ++ '"' :: rest) = some (s, rest) := by
  induction s with
  | nil => simp [escapeChars, parseStrChars.eq_def]
  | cons c t ih =>
    by_cases hc : c = '"' ∨ c = '\\'
    · simp only [escapeChars, escChar, if_pos hc, List.cons_append, List.append_assoc]
      rw [parseStrChars.eq_def]
      simp [ih]
    · simp only [escapeChars, escChar, if_neg hc, List.cons_append]
      push_neg at hc
      rw [parseStrChars.eq_def]
      simp [hc.1, hc.2, ih]

theorem sVm_top_head (v : JVal) :
    ∃ c cs, sVm .top v = c :: cs ∧ isWs c = false ∧ c ≠ ']' ∧ c ≠ '}' := by
  cases v with
  | jnull => exact ⟨'n', _, rfl, by decide, by decide, by decide⟩
  | jbool b =>
    cases b with
    | false => exact ⟨'f', _, rfl, by decide, by decide, by decide⟩
    | true => exact ⟨'t', _, rfl, by decide, by decide, by decide⟩
  | jnum n =>
    show ∃ c cs, intToChars n = c :: cs ∧ _
    by_cases hneg : n < 0
    · rw [intToChars, if_pos hneg]
      exact ⟨'-', _, rfl, by decide, by decide, by decide⟩
    · rw [intToChars, if_neg hneg]
      obtain ⟨c, cs, hc, hd⟩ := natToChars_head n.natAbs
      exact ⟨c, cs, hc, isDigit_not_ws hd, isDigit_ne ']' hd (by decide),
        isDigit_ne '}' hd (by decide)⟩
  | jstr s => exact ⟨'"', _, rfl, by decide, by decide, by decide⟩
  | jarrNil => exact ⟨'[', _, rfl, by decide, by decide, by decide⟩
  | jarrCons h t => exact ⟨'[', _, rfl, by decide, by decide, by decide⟩
  | jobjNil => exact ⟨'{', _, rfl, by decide, by decide, by decide⟩
  | jobjCons k v t => exact ⟨'{', _, rfl, by decide, by decide, by decide⟩

theorem sVm_top_ne_nil (v : JVal) : sVm .top v ≠ [] := by
  obtain ⟨c, cs, hc, _⟩ := sVm_top_head v
  rw [hc]
  simp

theorem leadDigit_otail (t : JVal) (h : objShape t = true) (rest : List Char) :
    leadDigit (sVm .otail t ++ rest) = false := by
  cases t <;> simp [objShape] at h <;> simp [sVm, leadDigit]

theorem leadDigit_atail (t : JVal) (h : arrShape t = true) (rest : List Char) :
    leadDigit (sVm .atail t ++ rest) = false := by
  cases t <;> simp [arrShape] at h <;> simp [sVm, leadDigit]

theorem pval_step (f : Nat) (ihm : PmemStmt f) (ihe : PelemStmt f) : PvalStmt (f + 1) := by
  intro v rest hwf hrest hlen
  cases v with
  | jnull =>
    rw [parseP.eq_def]
    simp only [sVm, List.cons_append]
    rw [skipWs_cons (by decide)]
    simp only [if_pos]
    exact expectKeyword_append ['u', 'l', 'l'] .jnull rest
  | jbool b =>
    cases b with
    | true =>
      rw [parseP.eq_def]
      simp only [sVm, List.cons_append]
      rw [skipWs_cons (by decide)]
      simp
      exact expectKeyword_append ['r', 'u', 'e'] (.jbool true) rest
    | false =>
      rw [parseP.eq_def]
      simp only [sVm, List.cons_append]
      rw [skipWs_cons (by decide)]
      simp
      exact expectKeyword_append ['a', 'l', 's', 'e'] (.jbool false) rest
  | jnum n =>
    rw [parseP.eq_def]
    simp only [sVm]
    by_cases hneg : n < 0
    · have hrt2 : parseIntTok ('-' :: (natToChars n.natAbs ++ rest)) = some (.jnum n, rest) := by
        have h0 := parseIntTok_intToChars n rest hrest
        rw [intToChars, if_pos hneg] at h0
        simpa using h0
      rw [show intToChars n = '-' :: natToChars n.natAbs from by rw [intToChars, if_pos hneg]]
      simp only [List.cons_append]
      rw [skipWs_cons (by decide)]
      simp [hrt2]
    · obtain ⟨c, cs, hc, hd⟩ := natToChars_head n.natAbs
      have hin : intToChars n = c :: cs := by rw [intToChars, if_neg hneg, hc]
      have hrt2 : parseIntTok (c :: (cs ++ rest)) = some (.jnum n, rest) := by
        have h0 := parseIntTok_intToChars n rest hrest
        rw [hin] at h0
        simpa using h0
      rw [hin]
      simp only [List.cons_append]
      rw [skipWs_cons (isDigit_not_ws hd)]
      simp [isDigit_ne 'n' hd (by decide), isDigit_ne 't' hd (by decide),
        isDigit_ne 'f' hd (by decide), isDigit_ne '"' hd (by decide),
        isDigit_ne '[' hd (by decide), isDigit_ne '{' hd (by decide), hrt2]
  | jstr s =>
    rw [parseP.eq_def]
    simp only [sVm, strLit, List.cons_append, List.append_assoc]
    rw [skipWs_cons (by decide)]
    simp only [List.nil_append]
    rw [parseStrChars_escape s.data rest]
    simp [stringMkData]
  | jarrNil =>
    rw [parseP.eq_def]
    simp only [sVm, List.cons_append]
    rw [skipWs_cons (by decide)]
    simp [skipWs_cons (show isWs ']' = false by decide)]
  | jarrCons h t =>
    simp only [wfJ, Bool.and_eq_true] at hwf
    obtain ⟨hh, hts, htw⟩ := hwf
    obtain ⟨c, cs, hc, hcw, hcb, _⟩ := sVm_top_head h
    have hlen2 : 2 * ((sVm .top h ++ sVm .atail t) ++ rest).length + 1 < f := by
      simp only [sVm, List.cons_append, List.length_append, List.length_cons] at hlen ⊢
      omega
    have hgoal := ihe h t rest hh hts htw hlen2
    rw [show (sVm .top h ++ sVm .atail t) ++ rest
        = c :: (cs ++ (sVm .atail t ++ rest)) from by rw [hc]; simp] at hgoal
    have hsplit : sVm .top (.jarrCons h t) ++ rest
        = '[' :: (c :: (cs ++ (sVm .atail t ++ rest))) := by
      rw [show sVm .top (.jarrCons h t) = '[' :: sVm .top h ++ sVm .atail t from rfl, hc]
      simp
    rw [hsplit, parseP.eq_def]
    simp [skipWs_cons (show isWs '[' = false by decide), skipWs_cons hcw, hcb, hgoal]
  | jobjNil =>
    rw [parseP.eq_def]
    simp only [sVm, List.cons_append]
    rw [skipWs_cons (by decide)]
    simp [skipWs_cons (show isWs '}' = false by decide)]
  | jobjCons k v t =>
    simp only [wfJ, Bool.and_eq_true] at hwf
    obtain ⟨hv, hts, htw⟩ := hwf
    have hlen2 : 2 * ((strLit k ++ ':' :: sVm .top v ++ sVm .otail t) ++ rest).length + 1 < f := by
      simp only [sVm, strLit, List.cons_append, List.append_assoc, List.length_append,
        List.length_cons] at hlen ⊢
      omega
    have hgoal := ihm k v t rest hv hts htw hlen2
    rw [show (strLit k ++ ':' :: sVm .top v ++ sVm .otail t) ++ rest
        = '"' :: (escapeChars k.data ++ ('"' :: (':' :: (sVm .top v ++ (sVm .otail t ++ rest)))))
        from by simp [strLit]] at hgoal
    have hsplit : sVm .top (.jobjCons k v t) ++ rest
        = '{' :: ('"' :: (escapeChars k.data ++ ('"' :: (':' :: (sVm .top v ++ (sVm .otail t ++ rest)))))) := by
      simp [sVm, strLit]
    rw [hsplit, parseP.eq_def]
    simp [skipWs_cons (show isWs '{' = false by decide),
      skipWs_cons (show isWs '"' = false by decide), hgoal]

theorem pmem_step (f : Nat) (ihv : PvalStmt f) (ihm : PmemStmt f) : PmemStmt (f + 1) := by
  intro k v t rest hv hts htw hlen
  have hvallen : 2 * (sVm .top v ++ (sVm .otail t ++ rest)).length < f := by
    simp only [strLit, List.cons_append, List.append_assoc, List.length_append,
      List.length_cons] at hlen ⊢
    omega
  have hval := ihv v (sVm .otail t ++ rest) hv (leadDigit_otail t hts rest) hvallen
  have hkey := parseStrChars_escape k.data (':' :: (sVm .top v ++ (sVm .otail t ++ rest)))
  rw [parseP.eq_def]
  cases t with
  | jobjNil =>
    simp only [sVm, strLit, List.cons_append, List.append_assoc, List.singleton_append,
      List.nil_append] at hval hkey ⊢
    simp [skipWs_cons (show isWs '"' = false by decide), hkey,
      skipWs_cons (show isWs ':' = false by decide), hval,
      skipWs_cons (show isWs '}' = false by decide), stringMkData]
  | jobjCons k2 v2 t2 =>
    simp only [wfJ, Bool.and_eq_true] at htw
    obtain ⟨hv2, hts2, htw2⟩ := htw
    have hvne : 0 < (sVm .top v).length := List.length_pos.mpr (sVm_top_ne_nil v)
    have hmemlen : 2 * ((strLit k2 ++ ':' :: sVm .top v2 ++ sVm .otail t2) ++ rest).length + 1 < f := by
      simp only [sVm, strLit, List.cons_append, List.append_assoc, List.length_append,
        List.length_cons] at hlen ⊢
      omega
    have hmem := ihm k2 v2 t2 rest hv2 hts2 htw2 hmemlen
    simp only [sVm, strLit, List.cons_append, List.append_assoc, List.singleton_append,
      List.nil_append] at hval hkey hmem ⊢
    simp [skipWs_cons (show isWs '"' = false by decide), hkey,
      skipWs_cons (show isWs ':' = false by decide), hval,
      skipWs_cons (show isWs ',' = false by decide), hmem, stringMkData]
  | jnull => simp [objShape] at hts
  | jbool b => simp [objShape] at hts
  | jnum n => simp [objShape] at hts
  | jstr s => simp [objShape] at hts
  | jarrNil => simp [objShape] at hts
  | jarrCons h2 t2 => simp [objShape] at hts

theorem pelem_step (f : Nat) (ihv : PvalStmt f) (ihe : PelemStmt f) : PelemStmt (f + 1) := by
  intro h t rest hh hts htw hlen
  have hvallen : 2 * (sVm .top h ++ (sVm .atail t ++ rest)).length < f := by
    simp only [List.cons_append, List.append_assoc, List.length_append,
      List.length_cons] at hlen ⊢
    omega
  have hval := ihv h (sVm .atail t ++ rest) hh (leadDigit_atail t hts rest) hvallen
  rw [parseP.eq_def]
  cases t with
  | jarrNil =>
    simp only [sVm, List.cons_append, List.append_assoc, List.singleton_append,
      List.nil_append] at hval ⊢
    simp [hval, skipWs_cons (show isWs ']' = false by decide)]
  | jarrCons h2 t2 =>
    simp only [wfJ, Bool.and_eq_true] at htw
    obtain ⟨hh2, hts2, htw2⟩ := htw
    have hhne : 0 < (sVm .top h).length := List.length_pos.mpr (sVm_top_ne_nil h)
    have helen : 2 * ((sVm .top h2 ++ sVm .atail t2) ++ rest).length + 1 < f := by
      simp only [sVm, List.cons_append, List.append_assoc, List.length_append,
        List.length_cons] at hlen ⊢
      omega
    have he2 := ihe h2 t2 rest hh2 hts2 htw2 helen
    simp only [sVm, List.cons_append, List.append_assoc, List.singleton_append,
      List.nil_append] at hval he2 ⊢
    simp [hval, he2, skipWs_cons (show isWs ',' = false by decide)]
  | jnull => simp [arrShape] at hts
  | jbool b => simp [arrShape] at hts
  | jnum n => simp [arrShape] at hts
  | jstr s => simp [arrShape] at hts
  | jobjNil => simp [arrShape] at hts
  | jobjCons k2 v2 t2 => simp [arrShape] at hts

theorem parseP_sVm_all (f : Nat) : PvalStmt f ∧ PmemStmt f ∧ PelemStmt f := by
  induction f with
  | zero =>
    refine ⟨?_, ?_, ?_⟩
    · intro v rest _ _ hlen; omega
    · intro k v t rest _ _ _ hlen; omega
    · intro h t rest _ _ _ hlen; omega
  | succ f ih =>
    exact ⟨pval_step f ih.2.1 ih.2.2, pmem_step f ih.1 ih.2.1, pelem_step f ih.1 ih.2.2⟩

/-- The serializer/parser round-trip: `JSON.parse (JSON.stringify v) = v` for
well-formed JSON values. -/
theorem jsonParse_stringifyV (v : JVal) (hwf : wfJ v = true) :
    jsonParse (stringifyV v) = some v := by
  have hval := (parseP_sVm_all (2 * (sVm .top v).length + 2)).1 v [] hwf rfl
    (by simp only [List.append_nil]; omega)
  simp only [List.append_nil] at hval
  simp [jsonParse, stringifyV, hval, skipWs]

/-! ## Helper lemmas about the credential store and user serialization -/
theorem wfJ_userToJVal (u : User) : wfJ (userToJVal u) = true := by
  rcases u with ⟨i, nm, em, org, cr⟩
  rcases org with _ | (_ | n) <;> rcases cr with _ | (_ | s) <;>
    simp [userToJVal, wfJ, objShape]

theorem stringifyV_ne_empty (v : JVal) : stringifyV v ≠ "" := by
  intro h
  have hd : sVm .top v = [] := by
    have hc := congrArg String.data h
    simpa [stringifyV] using hc
  exact sVm_top_ne_nil v hd

theorem clearAuthStorage_getters (w : WebStorage) :
    getAccessToken (clearAuthStorage w) = none
    ∧ getRefreshToken (clearAuthStorage w) = none
    ∧ getStoredUser (clearAuthStorage w) = .ok none := by
  simp [clearAuthStorage, getAccessToken, getRefreshToken, getStoredUser, readFromStorage,
    Store.removeItem, Store.getItem, Option.orElse]

theorem status401_not_ok (r : HttpResponse) (h : r.status = 401) :
    r.ok = false := by
  simp [HttpResponse.ok, h]

/-! ## Credential-store claims -/
/-- C8: for every user record `u` and every storage lifetime, the sequence
`setUser(u, L); getUser()` returns a value deep-equal to `u`. -/
theorem setStoredUser_roundtrip (u : User) (rememberMe : Bool) (w : WebStorage) :
    getStoredUser (setStoredUser (userToJVal u) rememberMe w) = .ok (some (userToJVal u)) := by
  have hrt := jsonParse_stringifyV (userToJVal u) (wfJ_userToJVal u)
  have hne := stringifyV_ne_empty (userToJVal u)
  cases rememberMe <;>
    simp [setStoredUser, getStoredUser, readFromStorage, getStorage, setStorage,
      Store.setItem, Store.removeItem, Store.getItem, Option.orElse, hrt, hne]

/-- C10: every `setTokens` call also removes the stored user snapshot from
both storage lifetimes, so immediately afterwards `getUser()` returns none. -/
theorem setAuthTokens_clears_user (tokens : TokenPair) (rememberMe : Bool) (w : WebStorage) :
    (setAuthTokens tokens rememberMe w).localStorage.getItem .userKey = none
    ∧ (setAuthTokens tokens rememberMe w).sessionStorage.getItem .userKey = none
    ∧ getStoredUser (setAuthTokens tokens rememberMe w) = .ok none := by
  cases rememberMe <;>
    simp [setAuthTokens, clearAuthStorage, getStorage, setStorage, Store.setItem,
      Store.removeItem, Store.getItem, getStoredUser, readFromStorage, Option.orElse]

/-- C6: after every `setTokens(pair, lifetime)` call the non-selected
lifetime holds no access and no refresh token and the single-active-lifetime
invariant holds, and that invariant is preserved by `setUser`,
`updateAccessToken` and `clear`. -/
theorem credentialStore_single_lifetime :
    (∀ tokens rememberMe w,
      (getStorage (setAuthTokens tokens rememberMe w)
          (if rememberMe then StorageType.sessionS else StorageType.localS)).getItem
        .accessTokenKey = none
      ∧ (getStorage (setAuthTokens tokens rememberMe w)
          (if rememberMe then StorageType.sessionS else StorageType.localS)).getItem
        .refreshTokenKey = none
      ∧ TokenInv (setAuthTokens tokens rememberMe w))
    ∧ (∀ u rememberMe w, TokenInv w → TokenInv (setStoredUser u rememberMe w))
    ∧ (∀ tok w, TokenInv w → TokenInv (updateAccessToken tok w))
    ∧ (∀ w, TokenInv w → TokenInv (clearAuthStorage w)) := by
  refine ⟨?_, ?_, ?_, ?_⟩
  · intro tokens rememberMe w
    cases rememberMe <;>
      simp [setAuthTokens, clearAuthStorage, getStorage, setStorage, Store.setItem,
        Store.removeItem, Store.getItem, TokenInv]
  · intro u rememberMe w hinv
    cases rememberMe <;>
      simpa [setStoredUser, getStorage, setStorage, Store.setItem, Store.removeItem,
        Store.getItem, TokenInv] using hinv
  · intro tok w hinv
    rcases hgt : getTokenStorageType w with _ | t
    · simpa [updateAccessToken, hgt] using hinv
    · cases t <;>
        simpa [updateAccessToken, hgt, getStorage, setStorage, Store.setItem,
          Store.getItem, TokenInv] using hinv
  · intro w hinv
    simp [clearAuthStorage, Store.removeItem, Store.getItem, TokenInv]

/-- Witness for C6 at concrete inputs. -/
theorem credentialStore_single_lifetime_witness :
    TokenInv (setStoredUser .jobjNil true (setAuthTokens ⟨"a", "r"⟩ true emptyWeb))
    ∧ TokenInv (updateAccessToken "n" (setAuthTokens ⟨"a", "r"⟩ false emptyWeb))
    ∧ TokenInv (clearAuthStorage emptyWeb) := by
  have h := credentialStore_single_lifetime
  exact ⟨h.2.1 .jobjNil true _ (h.1 ⟨"a", "r"⟩ true emptyWeb).2.2,
    h.2.2.1 "n" _ (h.1 ⟨"a", "r"⟩ false emptyWeb).2.2,
    h.2.2.2 emptyWeb (Or.inl rfl)⟩

/-! ## Session-facade cache-clearing claims -/
/-- C2 counterexample: with an active Persistent lifetime holding tokens,
`updateCurrentUser(none)` nevertheless destroys the stored access and
refresh tokens — the claimed frame condition fails. -/
theorem updateCurrentUser_none_destroys_tokens :
    getAuthStorageType (WebStorage.mk ⟨some "a", some "r", none⟩ emptyStore) = some .localS
    ∧ (WebStorage.mk ⟨some "a", some "r", none⟩ emptyStore).localStorage.getItem
        .refreshTokenKey = some "r"
    ∧ (updateCurrentUser none
        ⟨WebStorage.mk ⟨some "a", some "r", none⟩ emptyStore, some .jobjNil, [], []⟩).web.localStorage.getItem
        .refreshTokenKey = none
    ∧ (updateCurrentUser none
        ⟨WebStorage.mk ⟨some "a", some "r", none⟩ emptyStore, some .jobjNil, [], []⟩).web.localStorage.getItem
        .accessTokenKey = none :=
  ⟨rfl, rfl, rfl, rfl⟩

/-- C2 amended: `updateCurrentUser(none)` always clears the cached identity
and clears the entire auth storage, whether or not an active lifetime
exists. -/
theorem updateCurrentUser_none_clears_storage (st : AppSt) :
    (updateCurrentUser none st).currentUser = none
    ∧ (updateCurrentUser none st).web = clearAuthStorage st.web
    ∧ getAccessToken (updateCurrentUser none st).web = none
    ∧ getRefreshToken (updateCurrentUser none st).web = none
    ∧ getStoredUser (updateCurrentUser none st).web = .ok none := by
  have hcl := clearAuthStorage_getters st.web
  refine ⟨?_, ?_, ?_, ?_, ?_⟩ <;>
    simp [updateCurrentUser, getAuthStorageType, hcl.1, hcl.2.1, hcl.2.2]

/-! ## Stored-user deserialization claims -/
/-- C3 counterexample: a malformed stored user string makes `getUser()`
throw (`JSON.parse` raises a `SyntaxError`; there is no catch), rather than
return none. -/
theorem getStoredUser_malformed_throws :
    getStoredUser (WebStorage.mk ⟨none, none, some "\x7b"⟩ emptyStore) = .error () := rfl

/-- C3 amended: `getUser()` returns none when the stored value is absent or
empty, returns the deserialized snapshot when it parses, and throws a parse
exception (rather than treating it as a cache miss) when a nonempty stored
value is malformed. -/
theorem getStoredUser_spec (w : WebStorage) (s : String) (v : JVal) :
    (readFromStorage .userKey w = none → getStoredUser w = .ok none)
    ∧ (readFromStorage .userKey w = some "" → getStoredUser w = .ok none)
    ∧ (readFromStorage .userKey w = some s → jsonParse s = some v →
        getStoredUser w = .ok (some v))
    ∧ (readFromStorage .userKey w = some s → s ≠ "" → jsonParse s = none →
        getStoredUser w = .error ()) := by
  refine ⟨?_, ?_, ?_, ?_⟩
  · intro h
    simp [getStoredUser, h]
  · intro h
    simp [getStoredUser, h]
  · intro h hp
    have hs : s ≠ "" := by
      intro he
      subst he
      rw [show jsonParse "" = none from rfl] at hp
      cases hp
    simp [getStoredUser, h, hs, hp]
  · intro h hs hp
    simp [getStoredUser, h, hs, hp]

/-- Witness for C3's amended claim at concrete inputs. -/
theorem getStoredUser_spec_witness :
    getStoredUser (WebStorage.mk ⟨none, none, some "1"⟩ emptyStore) = .ok (some (.jnum 1))
    ∧ getStoredUser emptyWeb = .ok none := by
  refine ⟨(getStoredUser_spec (WebStorage.mk ⟨none, none, some "1"⟩ emptyStore) "1"
    (.jnum 1)).2.2.1 rfl rfl, (getStoredUser_spec emptyWeb "" .jnull).1 rfl⟩

/-- Full run of Scenario A: with both tokens stored under either lifetime,
`fetchCurrentUser` meets a 401, refreshes, retries with the fresh token, and
returns the user of the second response; exactly three fetches are logged —
the 401 attempt with the old bearer token, one refresh call with the refresh
token, and the retried attempt with the new token. -/
theorem scenarioA_run
    (accessTok refreshTok newTok : String) (rememberMe : Bool) (u : User)
    (r1 : HttpResponse) (rt2 rt3 : String) (ct2 : Option String)
    (restQ : List HttpResponse) (cu0 : Option JVal) (calls0 : List FetchCall)
    (ha : accessTok ≠ "") (hr : refreshTok ≠ "") (hn : newTok ≠ "")
    (h401 : r1.status = 401) :
    (fetchCurrentUser ⟨scenarioWeb accessTok refreshTok rememberMe, cu0,
        r1 :: refreshOkResp rt2 ct2 newTok :: userOkResp rt3 u :: restQ, calls0⟩).1
      = .ok (some (userToJVal u))
    ∧ (fetchCurrentUser ⟨scenarioWeb accessTok refreshTok rememberMe, cu0,
        r1 :: refreshOkResp rt2 ct2 newTok :: userOkResp rt3 u :: restQ, calls0⟩).2.calls
      = calls0 ++
        [⟨API_BASE_URL ++ "/users/me", "GET", some ("Bearer " ++ accessTok), none, none⟩,
         ⟨API_BASE_URL ++ "/auth/refresh", "POST", some ("Bearer " ++ refreshTok), none, none⟩,
         ⟨API_BASE_URL ++ "/users/me", "GET", some ("Bearer " ++ newTok), none, none⟩]
    ∧ (fetchCurrentUser ⟨scenarioWeb accessTok refreshTok rememberMe, cu0,
        r1 :: refreshOkResp rt2 ct2 newTok :: userOkResp rt3 u :: restQ, calls0⟩).2.pending
      = restQ
    ∧ (fetchCurrentUser ⟨scenarioWeb accessTok refreshTok rememberMe, cu0,
        r1 :: refreshOkResp rt2 ct2 newTok :: userOkResp rt3 u :: restQ, calls0⟩).2.currentUser
      = some (userToJVal u) := by
  have hpath : ("/users/me" : String) ≠ "/auth/refresh" := by decide
  have hct : ctIncludesJson (some "application/json") = true := rfl
  have hparse2 : jsonParse (stringifyV (.jobjCons "access_token" (.jstr newTok) .jobjNil))
      = some (.jobjCons "access_token" (.jstr newTok) .jobjNil) :=
    jsonParse_stringifyV _ (by simp [wfJ, objShape])
  obtain ⟨juser, hju, hwfu⟩ : ∃ j, userToJVal u = j ∧ wfJ j = true :=
    ⟨userToJVal u, rfl, wfJ_userToJVal u⟩
  have hparse3 : jsonParse (stringifyV (.jobjCons "user" juser .jobjNil))
      = some (.jobjCons "user" juser .jobjNil) :=
    jsonParse_stringifyV _ (by simp [wfJ, objShape, hwfu])
  cases rememberMe <;>
    simp [fetchCurrentUser, apiClientGet, request, requestAux, doFetch, requestCall,
      requestAuthHeader, refreshAccessToken, handleResponse, defaultOptions, scenarioWeb,
      setAuthTokens, clearAuthStorage, emptyWeb, emptyStore, getStorage, setStorage,
      Store.setItem, Store.removeItem, Store.getItem, getAccessToken, getRefreshToken,
      readFromStorage, Option.orElse, getTokenStorageType, getAuthStorageType, strTruthy,
      updateAccessToken, updateCurrentUser, setStoredUser, JVal.getField, JVal.truthy,
      jsStrM, refreshOkResp, userOkResp, HttpResponse.ok, hparse2, hparse3, ha, hr, hn,
      h401, hpath, hct, hju]

/-- C1 general part: on a 401 with `retry` set, auth not skipped and a
non-refresh path, when the refresh protocol succeeds, `request` returns the
result of re-issuing the request once with `retry := false` from the
post-refresh state. -/
theorem request_retries_after_refresh
    (path : String) (opts : RequestOptions) (st : AppSt) (r : HttpResponse)
    (rest : List HttpResponse)
    (hq : st.pending = r :: rest) (h401 : r.status = 401) (hretry : opts.retry = true)
    (hskip : opts.skipAuth = false) (hpath : path ≠ "/auth/refresh")
    (href : (refreshAccessToken (afterFirstFetch path opts st rest)).1 = .ok true) :
    request path opts st
      = requestAux 0 path { opts with retry := false }
          (refreshAccessToken (afterFirstFetch path opts st rest)).2 := by
  rcases hrf : refreshAccessToken (afterFirstFetch path opts st rest) with ⟨rr, st2⟩
  rw [hrf] at href
  simp only at href
  subst href
  simp only [request]
  rw [requestAux.eq_def]
  simp only [doFetch, hq]
  rw [if_pos ⟨h401, hretry, hskip, hpath⟩]
  rw [show ({ st with calls := st.calls ++ [requestCall path opts st], pending := rest } : AppSt)
    = afterFirstFetch path opts st rest from rfl, hrf]

/-- C1: the 401 refresh-and-retry protocol: in general, a 401 on a
retry-enabled, authenticated, non-refresh request whose refresh succeeds is
answered by re-issuing the request once with `retry := false` and returning
that result; and in the Scenario-A trace (401, then refresh 200, then 200
with a user payload) `fetchCurrentUser` returns the user of the second
response having issued exactly one refresh call and exactly two calls to the
underlying endpoint. -/
theorem retry_protocol_scenarioA
    (accessTok refreshTok newTok : String) (rememberMe : Bool) (u : User)
    (r1 : HttpResponse) (rt2 rt3 : String) (ct2 : Option String)
    (restQ : List HttpResponse) (cu0 : Option JVal) (calls0 : List FetchCall)
    (ha : accessTok ≠ "") (hr : refreshTok ≠ "") (hn : newTok ≠ "")
    (h401 : r1.status = 401) :
    (∀ path opts st r rest, st.pending = r :: rest → r.status = 401 →
      opts.retry = true → opts.skipAuth = false → path ≠ "/auth/refresh" →
      (refreshAccessToken (afterFirstFetch path opts st rest)).1 = .ok true →
      request path opts st = requestAux 0 path { opts with retry := false }
        (refreshAccessToken (afterFirstFetch path opts st rest)).2)
    ∧ (fetchCurrentUser ⟨scenarioWeb accessTok refreshTok rememberMe, cu0,
        r1 :: refreshOkResp rt2 ct2 newTok :: userOkResp rt3 u :: restQ, calls0⟩).1
      = .ok (some (userToJVal u))
    ∧ ((fetchCurrentUser ⟨scenarioWeb accessTok refreshTok rememberMe, cu0,
        r1 :: refreshOkResp rt2 ct2 newTok :: userOkResp rt3 u :: restQ, calls0⟩).2.calls.drop
          calls0.length).countP
        (fun c => c.url == API_BASE_URL ++ "/auth/refresh") = 1
    ∧ ((fetchCurrentUser ⟨scenarioWeb accessTok refreshTok rememberMe, cu0,
        r1 :: refreshOkResp rt2 ct2 newTok :: userOkResp rt3 u :: restQ, calls0⟩).2.calls.drop
          calls0.length).countP
        (fun c => c.url == API_BASE_URL ++ "/users/me") = 2 := by
  have hrun := scenarioA_run accessTok refreshTok newTok rememberMe u r1 rt2 rt3 ct2
    restQ cu0 calls0 ha hr hn h401
  have hx : ((API_BASE_URL ++ "/users/me" : String) == API_BASE_URL ++ "/auth/refresh") = false := by
    decide
  have hy : ((API_BASE_URL ++ "/auth/refresh" : String) == API_BASE_URL ++ "/auth/refresh") = true := by
    decide
  have hz : ((API_BASE_URL ++ "/users/me" : String) == API_BASE_URL ++ "/users/me") = true := by
    decide
  have hw : ((API_BASE_URL ++ "/auth/refresh" : String) == API_BASE_URL ++ "/users/me") = false := by
    decide
  refine ⟨fun path opts st r rest hq h4 hre hs hp href =>
      request_retries_after_refresh path opts st r rest hq h4 hre hs hp href,
    hrun.1, ?_, ?_⟩
  · rw [hrun.2.1, List.drop_left]
    simp [List.countP_cons, hx, hy]
  · rw [hrun.2.1, List.drop_left]
    simp [List.countP_cons, hz, hw]

/-- Witness for C1 at concrete inputs. -/
theorem retry_protocol_scenarioA_witness :
    (fetchCurrentUser ⟨scenarioWeb "a" "r" true, none,
        ⟨401, "Unauthorized", none, ""⟩ :: refreshOkResp "OK" none "n"
          :: userOkResp "OK" ⟨1, "x", "y", none, none⟩ :: [], []⟩).1
      = .ok (some (userToJVal ⟨1, "x", "y", none, none⟩)) :=
  (retry_protocol_scenarioA "a" "r" "n" true ⟨1, "x", "y", none, none⟩
    ⟨401, "Unauthorized", none, ""⟩ "OK" "OK" none [] none []
    (by decide) (by decide) (by decide) rfl).2.1

/-- C9: after a successful refresh, the re-issued request reads the access
token afresh, so its bearer header carries the newly minted token, not the
expired one used on the first attempt. -/
theorem retry_uses_fresh_token
    (accessTok refreshTok newTok : String) (rememberMe : Bool) (u : User)
    (r1 : HttpResponse) (rt2 rt3 : String) (ct2 : Option String)
    (restQ : List HttpResponse) (cu0 : Option JVal) (calls0 : List FetchCall)
    (ha : accessTok ≠ "") (hr : refreshTok ≠ "") (hn : newTok ≠ "")
    (h401 : r1.status = 401) (hdiff : newTok ≠ accessTok) :
    ∃ c1 c2 c3, (fetchCurrentUser ⟨scenarioWeb accessTok refreshTok rememberMe, cu0,
        r1 :: refreshOkResp rt2 ct2 newTok :: userOkResp rt3 u :: restQ, calls0⟩).2.calls
      = calls0 ++ [c1, c2, c3]
      ∧ c1.authorization = some ("Bearer " ++ accessTok)
      ∧ c3.url = API_BASE_URL ++ "/users/me"
      ∧ c3.authorization = some ("Bearer " ++ newTok)
      ∧ c3.authorization ≠ c1.authorization := by
  have hrun := scenarioA_run accessTok refreshTok newTok rememberMe u r1 rt2 rt3 ct2
    restQ cu0 calls0 ha hr hn h401
  refine ⟨_, _, _, hrun.2.1, rfl, rfl, rfl, ?_⟩
  intro hq
  apply hdiff
  have h1 := Option.some.inj hq
  have h2 := congrArg String.data h1
  rw [String.data_append, String.data_append] at h2
  have h3 := List.append_cancel_left h2
  calc newTok = String.mk newTok.data := (stringMkData _).symm
    _ = String.mk accessTok.data := by rw [h3]
    _ = accessTok := stringMkData _

/-- Witness for C9 at concrete inputs. -/
theorem retry_uses_fresh_token_witness :
    ∃ c1 c2 c3, (fetchCurrentUser ⟨scenarioWeb "a" "r" true, none,
        ⟨401, "Unauthorized", none, ""⟩ :: refreshOkResp "OK" none "n"
          :: userOkResp "OK" ⟨1, "x", "y", none, none⟩ :: [], []⟩).2.calls
      = [] ++ [c1, c2, c3]
      ∧ c1.authorization = some ("Bearer " ++ "a")
      ∧ c3.url = API_BASE_URL ++ "/users/me"
      ∧ c3.authorization = some ("Bearer " ++ "n")
      ∧ c3.authorization ≠ c1.authorization :=
  retry_uses_fresh_token "a" "r" "n" true ⟨1, "x", "y", none, none⟩
    ⟨401, "Unauthorized", none, ""⟩ "OK" "OK" none [] none []
    (by decide) (by decide) (by decide) rfl (by decide)

/-- C4, Scenario C: an authenticated retry-eligible request gets a 401 and
the refresh call itself returns non-2xx: all stored credentials are cleared
and the caller receives an `ApiError` carrying the original request's 401
status. -/
theorem scenarioC_refresh_failure
    (path : String) (opts : RequestOptions) (st : AppSt) (r1 r2 : HttpResponse)
    (rest : List HttpResponse) (rtok : String)
    (hq : st.pending = r1 :: r2 :: rest)
    (htok : getRefreshToken st.web = some rtok) (hne : rtok ≠ "")
    (h401 : r1.status = 401) (hretry : opts.retry = true) (hskip : opts.skipAuth = false)
    (hpath : path ≠ "/auth/refresh") (h2 : r2.ok = false)
    (hbody : jsonParse r1.body ≠ some .jnull) :
    resStatus (request path opts st).1 = some 401
    ∧ getAccessToken (request path opts st).2.web = none
    ∧ getRefreshToken (request path opts st).2.web = none := by
  have hnok := status401_not_ok r1 h401
  have hcl := clearAuthStorage_getters st.web
  rcases hp : jsonParse r1.body with _ | v
  · simp [request, requestAux, doFetch, hq, refreshAccessToken, htok, hne, handleResponse,
      h401, hretry, hskip, hpath, h2, hp, hnok, resStatus, hcl.1, hcl.2.1]
  · have hv : v ≠ .jnull := by
      intro he
      exact hbody (by rw [hp, he])
    simp [request, requestAux, doFetch, hq, refreshAccessToken, htok, hne, handleResponse,
      h401, hretry, hskip, hpath, h2, hp, hv, hnok, resStatus, hcl.1, hcl.2.1]

/-- Witness for C4 at concrete inputs. -/
theorem scenarioC_refresh_failure_witness :
    resStatus (request "/users/me" defaultOptions
      ⟨scenarioWeb "a" "r" true, none,
        ⟨401, "Unauthorized", none, ""⟩ :: ⟨401, "Unauthorized", none, ""⟩ :: [], []⟩).1
      = some 401
    ∧ getAccessToken (request "/users/me" defaultOptions
      ⟨scenarioWeb "a" "r" true, none,
        ⟨401, "Unauthorized", none, ""⟩ :: ⟨401, "Unauthorized", none, ""⟩ :: [], []⟩).2.web
      = none :=
  have h := scenarioC_refresh_failure "/users/me" defaultOptions
    ⟨scenarioWeb "a" "r" true, none,
      ⟨401, "Unauthorized", none, ""⟩ :: ⟨401, "Unauthorized", none, ""⟩ :: [], []⟩
    ⟨401, "Unauthorized", none, ""⟩ ⟨401, "Unauthorized", none, ""⟩ [] "r"
    rfl rfl (by decide) rfl rfl rfl (by decide) rfl (by decide)
  ⟨h.1, h.2.1⟩

/-- C5, Scenario B: a 401 on an authenticated retry-eligible request while no
refresh token is stored in either lifetime fails immediately with the
original 401's `ApiError`, with zero calls to the refresh endpoint and the
storage untouched. -/
theorem scenarioB_no_refresh_token
    (path : String) (opts : RequestOptions) (st : AppSt) (r : HttpResponse)
    (rest : List HttpResponse)
    (hq : st.pending = r :: rest)
    (hlo : st.web.localStorage.getItem .refreshTokenKey = none)
    (hse : st.web.sessionStorage.getItem .refreshTokenKey = none)
    (h401 : r.status = 401) (hretry : opts.retry = true) (hskip : opts.skipAuth = false)
    (hpath : path ≠ "/auth/refresh")
    (hbody : jsonParse r.body ≠ some .jnull) :
    resStatus (request path opts st).1 = some 401
    ∧ (request path opts st).2.calls = st.calls ++ [requestCall path opts st]
    ∧ (request path opts st).2.pending = rest
    ∧ (request path opts st).2.web = st.web := by
  have hnok := status401_not_ok r h401
  rcases hp : jsonParse r.body with _ | v
  · simp [request, requestAux, doFetch, hq, refreshAccessToken, getRefreshToken,
      readFromStorage, hlo, hse, Option.orElse, handleResponse, h401, hretry, hskip,
      hpath, hp, hnok, resStatus]
  · have hv : v ≠ .jnull := by
      intro he
      exact hbody (by rw [hp, he])
    simp [request, requestAux, doFetch, hq, refreshAccessToken, getRefreshToken,
      readFromStorage, hlo, hse, Option.orElse, handleResponse, h401, hretry, hskip,
      hpath, hp, hv, hnok, resStatus]

/-- Witness for C5 at concrete inputs. -/
theorem scenarioB_no_refresh_token_witness :
    resStatus (request "/users/me" defaultOptions
      ⟨emptyWeb, none, ⟨401, "Unauthorized", none, ""⟩ :: [], []⟩).1 = some 401
    ∧ (request "/users/me" defaultOptions
      ⟨emptyWeb, none, ⟨401, "Unauthorized", none, ""⟩ :: [], []⟩).2.calls
      = [] ++ [requestCall "/users/me" defaultOptions
          ⟨emptyWeb, none, ⟨401, "Unauthorized", none, ""⟩ :: [], []⟩] :=
  have h := scenarioB_no_refresh_token "/users/me" defaultOptions
    ⟨emptyWeb, none, ⟨401, "Unauthorized", none, ""⟩ :: [], []⟩
    ⟨401, "Unauthorized", none, ""⟩ [] rfl rfl rfl rfl rfl rfl (by decide) (by decide)
  ⟨h.1, h.2.1⟩

/-- C7 counterexample: a 2xx response declaring JSON whose body does not
parse makes `request` complete with a thrown `SyntaxError` (not an
`ApiError`): the success-path `response.json()` is not guarded. -/
theorem request_success_parse_exn :
    (request "/x" defaultOptions ⟨emptyWeb, none,
      ⟨200, "OK", some "application/json", "\x7b"⟩ :: [], []⟩).1 = .jsExn := rfl

theorem handleResponse_settles (r : HttpResponse) (st : AppSt) (hs : SafeResp r) :
    (∃ v, (handleResponse r st).1 = .ok v) ∨ ∃ e, (handleResponse r st).1 = .apiErr e := by
  rcases hs with ⟨hok, herr⟩
  cases hb : r.ok with
  | false =>
    rcases hp : jsonParse r.body with _ | v
    · exact Or.inr ⟨⟨parseErrorMessage .jobjNil r.statusText, r.status, .jobjNil⟩,
        by simp [handleResponse, hb, hp]⟩
    · have hv : v ≠ .jnull := by
        intro he
        exact herr hb (by rw [hp, he])
      exact Or.inr ⟨⟨parseErrorMessage v r.statusText, r.status, v⟩,
        by simp [handleResponse, hb, hp, hv]⟩
  | true =>
    obtain ⟨v, hp, hv⟩ := hok hb
    by_cases h204 : r.status = 204
    · exact Or.inl ⟨.empty, by simp [handleResponse, hb, h204]⟩
    · by_cases hct : ctIncludesJson r.contentType = true
      · exact Or.inl ⟨.jsonVal v, by simp [handleResponse, hb, h204, hct, hp]⟩
      · exact Or.inl ⟨.textVal r.body, by simp [handleResponse, hb, h204, hct]⟩

theorem refreshAccessToken_ok_or (st : AppSt) (r : HttpResponse) (rest : List HttpResponse)
    (hq : st.pending = r :: rest) (hs : SafeResp r) :
    (∃ b, (refreshAccessToken st).1 = .ok b)
    ∧ ((refreshAccessToken st).2.pending = st.pending
        ∨ (refreshAccessToken st).2.pending = rest) := by
  rcases hrt : getRefreshToken st.web with _ | tok
  · exact ⟨⟨false, by simp [refreshAccessToken, hrt]⟩,
      Or.inl (by simp [refreshAccessToken, hrt])⟩
  · by_cases he : tok = ""
    · exact ⟨⟨false, by simp [refreshAccessToken, hrt, he]⟩,
        Or.inl (by simp [refreshAccessToken, hrt, he])⟩
    · cases hok : r.ok with
      | false =>
        exact ⟨⟨false, by simp [refreshAccessToken, hrt, he, doFetch, hq, hok]⟩,
          Or.inr (by simp [refreshAccessToken, hrt, he, doFetch, hq, hok, clearAuthStorage])⟩
      | true =>
        obtain ⟨v, hp, hv⟩ := hs.1 hok
        rcases hgf : JVal.getField v "access_token" with _ | tv
        · exact ⟨⟨false, by simp [refreshAccessToken, hrt, he, doFetch, hq, hok, hp, hv, hgf]⟩,
            Or.inr (by simp [refreshAccessToken, hrt, he, doFetch, hq, hok, hp, hv, hgf])⟩
        · cases htv : tv.truthy with
          | true =>
            exact ⟨⟨true,
                by simp [refreshAccessToken, hrt, he, doFetch, hq, hok, hp, hv, hgf, htv]⟩,
              Or.inr
                (by simp [refreshAccessToken, hrt, he, doFetch, hq, hok, hp, hv, hgf, htv])⟩
          | false =>
            exact ⟨⟨false,
                by simp [refreshAccessToken, hrt, he, doFetch, hq, hok, hp, hv, hgf, htv]⟩,
              Or.inr
                (by simp [refreshAccessToken, hrt, he, doFetch, hq, hok, hp, hv, hgf, htv])⟩

theorem requestAux0_settles (path : String) (opts : RequestOptions) (st : AppSt)
    (r : HttpResponse) (rest : List HttpResponse)
    (hq : st.pending = r :: rest) (hs : SafeResp r) (hretry : opts.retry = false) :
    (∃ v, (requestAux 0 path opts st).1 = .ok v)
    ∨ ∃ e, (requestAux 0 path opts st).1 = .apiErr e := by
  rw [requestAux.eq_def]
  simp only [doFetch, hq]
  rw [if_neg (by rintro ⟨h1, h2, h3, h4⟩; rw [hretry] at h2; exact Bool.noConfusion h2)]
  exact handleResponse_settles r _ hs

/-- C7 amended: for traces that supply enough responses and whose
responses are `SafeResp` (2xx bodies parse to non-null JSON, error bodies do
not parse to literal `null`), every `request` invocation completes either
with a successful (possibly retried) value or with a thrown `ApiError` —
never any other kind of exception; outside `SafeResp` the success-path and
refresh-path `JSON.parse` and the `null` error payload can propagate a
non-`ApiError` exception. -/
theorem request_settles
    (path : String) (opts : RequestOptions) (st : AppSt)
    (r1 r2 r3 : HttpResponse) (qrest : List HttpResponse)
    (hq : st.pending = r1 :: r2 :: r3 :: qrest)
    (h1 : SafeResp r1) (h2 : SafeResp r2) (h3 : SafeResp r3) :
    (∃ v, (request path opts st).1 = .ok v)
    ∨ ∃ e, (request path opts st).1 = .apiErr e := by
  simp only [request]
  rw [requestAux.eq_def]
  simp only [doFetch, hq]
  by_cases hcond : (r1.status = 401 ∧ opts.retry = true ∧ opts.skipAuth = false
      ∧ path ≠ "/auth/refresh")
  · rw [if_pos hcond]
    obtain ⟨hfst, hpend⟩ := refreshAccessToken_ok_or
      { st with calls := st.calls ++ [requestCall path opts st], pending := r2 :: r3 :: qrest }
      r2 (r3 :: qrest) rfl h2
    rcases hrf : refreshAccessToken { st with calls := st.calls ++ [requestCall path opts st], pending := r2 :: r3 :: qrest } with ⟨rr, st2⟩
    rw [hrf] at hfst hpend
    simp only at hfst hpend
    obtain ⟨b, hb⟩ := hfst
    subst hb
    cases b with
    | false => exact handleResponse_settles r1 _ h1
    | true =>
      rcases hpend with hp | hp
      · exact requestAux0_settles path { opts with retry := false } st2 r2 (r3 :: qrest)
          (by rw [hp]) h2 rfl
      · exact requestAux0_settles path { opts with retry := false } st2 r3 qrest hp h3 rfl
  · rw [if_neg hcond]
    exact handleResponse_settles r1 _ h1

/-- Witness for C7's amended claim at concrete inputs. -/
theorem request_settles_witness :
    (∃ v, (request "/x" defaultOptions ⟨emptyWeb, none,
        ⟨200, "OK", none, "1"⟩ :: ⟨200, "OK", none, "1"⟩ :: ⟨200, "OK", none, "1"⟩ :: [],
        []⟩).1 = .ok v)
    ∨ ∃ e, (request "/x" defaultOptions ⟨emptyWeb, none,
        ⟨200, "OK", none, "1"⟩ :: ⟨200, "OK", none, "1"⟩ :: ⟨200, "OK", none, "1"⟩ :: [],
        []⟩).1 = .apiErr e :=
  request_settles "/x" defaultOptions
    ⟨emptyWeb, none,
      ⟨200, "OK", none, "1"⟩ :: ⟨200, "OK", none, "1"⟩ :: ⟨200, "OK", none, "1"⟩ :: [], []⟩
    ⟨200, "OK", none, "1"⟩ ⟨200, "OK", none, "1"⟩ ⟨200, "OK", none, "1"⟩ [] rfl
    ⟨fun _ => ⟨.jnum 1, rfl, by decide⟩, fun hf => absurd hf (by decide)⟩
    ⟨fun _ => ⟨.jnum 1, rfl, by decide⟩, fun hf => absurd hf (by decide)⟩
    ⟨fun _ => ⟨.jnum 1, rfl, by decide⟩, fun hf => absurd hf (by decide)⟩

end Bingo
